import Mathlib

/-!
Shallow embedding of `src/EmailService.js`: the `RateLimiter`, the retry/failover
dispatch loop of `EmailService.send`, and the surrounding idempotency / status-map
bookkeeping.  Random backend behaviour (`EmailProvider.sendEmail`) is abstracted as
an injectable outcome oracle `Nat → Nat → Bool` (backend index → attempt index →
success), and wall-clock time is passed explicitly as an integer (epoch
milliseconds), following the spec's design notes on injectable clocks and
deterministic backend behaviour.
-/

namespace EmailServiceModel

/-- A delivery backend as the orchestration logic sees it: only its reporting
`name` matters (`EmailProvider`, source lines 1-13); its random success behaviour
is abstracted as an outcome oracle supplied per dispatch. -/
structure EmailProvider where
  name : String
deriving DecidableEq

/-- `RateLimiter` state (source lines 15-20): `limit`, `intervalMs` and the stored
admission `timestamps`, in insertion order. -/
structure RateLimiter where
  limit : Nat
  intervalMs : Int
  timestamps : List Int
deriving DecidableEq

/-- `RateLimiter.isAllowed` (source lines 22-30): keep only timestamps with
`now - ts < intervalMs`; if fewer than `limit` remain, append `now` and allow,
else deny.  Returns the decision together with the updated limiter state. -/
def RateLimiter.isAllowed (s : RateLimiter) (now : Int) : Bool × RateLimiter :=
  let kept := s.timestamps.filter (fun ts => decide (now - ts < s.intervalMs))
  if kept.length < s.limit then
    (true, { s with timestamps := kept ++ [now] })
  else
    (false, { s with timestamps := kept })

/-- The status records built by `EmailService.send` and `getStatus`
(source lines 50, 66-70, 88-91, 97). -/
inductive DeliveryStatus where
  | sent (provider : String) (attempts : Nat)
  | rate_limited (attempts : Nat)
  | failed (attempts : Nat)
  | unknown
deriving DecidableEq

/-- Observable events of one dispatch: a delivery attempt on a named backend
(0-indexed attempt counter, source line 64) or a backoff sleep of the given
duration (source line 78). -/
inductive Event where
  | attempt (provider : String) (attemptIdx : Nat)
  | sleep (ms : Nat)
deriving DecidableEq

/-- The inner `while (attempts < maxRetries)` loop of `send` (source lines 62-81)
for one backend: `outcome k` is the success of the k-th (0-indexed) attempt.
The fuel argument is the number of loop iterations remaining,
`maxRetries - attempts`.  On success the 1-indexed attempt count is returned;
after every failure (the final one included) a sleep of the current delay is
performed and the delay doubles. -/
def runRetries (name : String) (outcome : Nat → Bool) (attempts delay : Nat) :
    Nat → List Event × Option Nat
  | 0 => ([], none)
  | fuel + 1 =>
    if outcome attempts then
      ([Event.attempt name attempts], some (attempts + 1))
    else
      let rest := runRetries name outcome (attempts + 1) (delay * 2) fuel
      (Event.attempt name attempts :: Event.sleep delay :: rest.1, rest.2)

/-- The outer `for` loop over `this.providers` (source lines 55-85): each backend
in order gets a fresh attempt counter (0) and a fresh delay (100).  A `none`
entry models an undefined provider, whose `provider.name` access on source
line 60 throws (modelled as `Except.error ()`). -/
def dispatchLoop (oracle : Nat → Nat → Bool) (maxRetries : Nat) :
    List (Option EmailProvider) → Nat → Except Unit (List Event × Option (String × Nat))
  | [], _ => .ok ([], none)
  | none :: _, _ => .error ()
  | some p :: rest, idx =>
    let r := runRetries p.name (oracle idx) 0 100 maxRetries
    match r.2 with
    | some a => .ok (r.1, some (p.name, a))
    | none =>
      match dispatchLoop oracle maxRetries rest (idx + 1) with
      | .ok (evs, res) => .ok (r.1 ++ evs, res)
      | .error e => .error e

/-- `EmailService` instance state (source lines 34-40): the fixed two-element
provider list, `maxRetries`, the `sentEmails` set, the `statusMap` and the
owned rate limiter. -/
structure EmailService where
  providers : List (Option EmailProvider)
  maxRetries : Nat
  sentEmails : String → Bool
  statusMap : String → Option DeliveryStatus
  rateLimiter : RateLimiter

/-- The `EmailService` constructor (source lines 34-40): stores exactly the two
positional providers, the retry budget, empty sent-set and status map, and a
rate limiter hard-wired to `limit 5`, `intervalMs 10000`.  The body contains no
validation and no throw, so the embedded constructor always returns `ok`. -/
def EmailService.construct (provider1 provider2 : Option EmailProvider)
    (maxRetries : Nat) : Except String EmailService :=
  .ok { providers := [provider1, provider2]
        maxRetries := maxRetries
        sentEmails := fun _ => false
        statusMap := fun _ => none
        rateLimiter := { limit := 5, intervalMs := 10000, timestamps := [] } }

/-- `EmailService.send` (source lines 42-94).  Returns the status handed back to
the caller (`none` models the JS `undefined` read on line 45 when no record
exists), the updated service state, and the trace of dispatch events; `error`
models an uncaught throw (undefined provider, line 60).  Branches in source
order: idempotency short-circuit, rate-limit check, dispatch loop, terminal
failure record. -/
def EmailService.send (st : EmailService) (emailId : String) (now : Int)
    (oracle : Nat → Nat → Bool) :
    Except Unit (Option DeliveryStatus × EmailService × List Event) :=
  if st.sentEmails emailId then
    .ok (st.statusMap emailId, st, [])
  else
    let rl := st.rateLimiter.isAllowed now
    if rl.1 then
      match dispatchLoop oracle st.maxRetries st.providers 0 with
      | .error e => .error e
      | .ok (evs, some pa) =>
        .ok (some (DeliveryStatus.sent pa.1 pa.2),
          { st with
              rateLimiter := rl.2
              sentEmails := fun id => if id = emailId then true else st.sentEmails id
              statusMap := fun id =>
                if id = emailId then some (DeliveryStatus.sent pa.1 pa.2)
                else st.statusMap id },
          evs)
      | .ok (evs, none) =>
        .ok (some (DeliveryStatus.failed (st.maxRetries * st.providers.length)),
          { st with
              rateLimiter := rl.2
              statusMap := fun id =>
                if id = emailId then
                  some (DeliveryStatus.failed (st.maxRetries * st.providers.length))
                else st.statusMap id },
          evs)
    else
      .ok (some (DeliveryStatus.rate_limited 0),
        { st with
            rateLimiter := rl.2
            statusMap := fun id =>
              if id = emailId then some (DeliveryStatus.rate_limited 0)
              else st.statusMap id },
        [])

/-- `EmailService.getStatus` (source lines 96-98). -/
def EmailService.getStatus (st : EmailService) (emailId : String) : DeliveryStatus :=
  (st.statusMap emailId).getD DeliveryStatus.unknown

/-- The event trace produced by one backend that fails every attempt: the
attempt/sleep pairs of `runRetries` with an all-failing outcome. -/
def failTrace (name : String) (attempts delay : Nat) : Nat → List Event
  | 0 => []
  | fuel + 1 =>
    Event.attempt name attempts :: Event.sleep delay ::
      failTrace name (attempts + 1) (delay * 2) fuel

/-- The event trace of a whole dispatch in which every backend fails every
attempt. -/
def allFailEvents (mr : Nat) : List (Option EmailProvider) → List Event
  | [] => []
  | some p :: rest => failTrace p.name 0 100 mr ++ allFailEvents mr rest
  | none :: rest => allFailEvents mr rest

/-- The first attempt index (0-indexed) on which an outcome oracle reports
success, among the first `maxRetries` attempts. -/
def firstSuccess (outcome : Nat → Bool) (maxRetries : Nat) : Option Nat :=
  (List.range maxRetries).find? outcome

/-- A sequence of admission checks at the given (explicit-clock) times,
threading the limiter state; returns the final state and the list of
(time, decision) pairs, in call order. -/
def runChecks (s : RateLimiter) : List Int → RateLimiter × List (Int × Bool)
  | [] => (s, [])
  | now :: rest =>
    let r := s.isAllowed now
    let tail := runChecks r.2 rest
    (tail.1, (now, r.1) :: tail.2)

/-- The timestamps of the allowed decisions of a check sequence. -/
def allowedOf (ds : List (Int × Bool)) : List Int :=
  (ds.filter (fun d => d.2)).map (fun d => d.1)

/-- Membership of time `t` in the trailing window of length `intervalMs`
ending at `w`. -/
def inWindow (intervalMs : Int) (w t : Int) : Bool :=
  decide (t ≤ w) && decide (w - t < intervalMs)

/-- States reachable from a freshly constructed service by successful `send`
steps. -/
inductive Reachable : EmailService → Prop where
  | init (p1 p2 : Option EmailProvider) (mr : Nat) (st : EmailService) :
      EmailService.construct p1 p2 mr = .ok st → Reachable st
  | step (st : EmailService) (id : String) (now : Int) (oracle : Nat → Nat → Bool)
      (res : Option DeliveryStatus) (st' : EmailService) (evs : List Event) :
      Reachable st → st.send id now oracle = .ok (res, st', evs) → Reachable st'

/-- The idempotency invariant: an identity is in `sentEmails` exactly when its
stored status is a `sent` record. -/
def SentInv (st : EmailService) : Prop :=
  ∀ id, st.sentEmails id = true ↔ ∃ p a, st.statusMap id = some (DeliveryStatus.sent p a)

/-! Concrete instances used by the witnesses: two named providers, the all-true
and all-false oracles, a freshly constructed service, and its successors after
one successful and one fully failing dispatch. -/

def provA : EmailProvider := ⟨"A"⟩

def provB : EmailProvider := ⟨"B"⟩

def oracleTrue : Nat → Nat → Bool := fun _ _ => true

def oracleFalse : Nat → Nat → Bool := fun _ _ => false

def demoSt0 : EmailService :=
  { providers := [some provA, some provB]
    maxRetries := 3
    sentEmails := fun _ => false
    statusMap := fun _ => none
    rateLimiter := { limit := 5, intervalMs := 10000, timestamps := [] } }

def demoSt1 : EmailService :=
  { demoSt0 with
      rateLimiter := { limit := 5, intervalMs := 10000, timestamps := [0] }
      sentEmails := fun id => if id = "e1" then true else false
      statusMap := fun id => if id = "e1" then some (DeliveryStatus.sent "A" 1) else none }

def demoStF : EmailService :=
  { demoSt0 with
      rateLimiter := { limit := 5, intervalMs := 10000, timestamps := [0] }
      statusMap := fun id => if id = "e2" then some (DeliveryStatus.failed 6) else none }

/-- The service state produced by constructing with both providers missing
(the JS `new EmailService()` with no arguments). -/
def badService (mr : Nat) : EmailService :=
  { providers := [none, none]
    maxRetries := mr
    sentEmails := fun _ => false
    statusMap := fun _ => none
    rateLimiter := { limit := 5, intervalMs := 10000, timestamps := [] } }

/-! Helper lemmas about the retry loop and the dispatch loop. -/

theorem runRetries_allFail (name : String) (outcome : Nat → Bool)
    (h : ∀ k, outcome k = false) :
    ∀ fuel attempts delay,
      runRetries name outcome attempts delay fuel
        = (failTrace name attempts delay fuel, none) := by
  intro fuel
  induction fuel with
  | zero => intro attempts delay; simp [runRetries, failTrace]
  | succ n ih => intro attempts delay; simp [runRetries, failTrace, h, ih]

theorem dispatchLoop_allFail (oracle : Nat → Nat → Bool) (mr : Nat)
    (hfail : ∀ i k, oracle i k = false) :
    ∀ (providers : List (Option EmailProvider)) (idx : Nat),
      (∀ p ∈ providers, p.isSome = true) →
      dispatchLoop oracle mr providers idx = .ok (allFailEvents mr providers, none) := by
  intro providers
  induction providers with
  | nil => intro idx _; simp [dispatchLoop, allFailEvents]
  | cons p rest ih =>
    intro idx hsome
    match p with
    | none => exact absurd (hsome none (List.mem_cons_self _ _)) (by simp)
    | some q =>
      have hrest : ∀ p ∈ rest, p.isSome = true := fun p hp => hsome p (List.mem_cons_of_mem _ hp)
      simp only [dispatchLoop, runRetries_allFail q.name (oracle idx) (hfail idx) mr 0 100,
        ih (idx + 1) hrest, allFailEvents]

theorem runRetries_snd_eq_firstSuccess (name : String) (outcome : Nat → Bool) :
    ∀ fuel attempts delay,
      (runRetries name outcome attempts delay fuel).2
        = ((List.range' attempts fuel).find? outcome).map (· + 1) := by
  intro fuel
  induction fuel with
  | zero => intro attempts delay; simp [runRetries]
  | succ n ih =>
    intro attempts delay
    rw [List.range'_succ]
    by_cases h : outcome attempts = true
    · simp [runRetries, h, List.find?]
    · have h' : outcome attempts = false := by
        cases hb : outcome attempts
        · rfl
        · exact absurd hb h
      simp [runRetries, h', List.find?, ih]

/-! The idempotency invariant holds in every reachable state. -/

theorem sentInv_construct (p1 p2 : Option EmailProvider) (mr : Nat) (st : EmailService)
    (h : EmailService.construct p1 p2 mr = .ok st) : SentInv st := by
  simp only [EmailService.construct, Except.ok.injEq] at h
  subst h
  intro id
  simp

theorem sentInv_step (st : EmailService) (id : String) (now : Int) (oracle : Nat → Nat → Bool)
    (res : Option DeliveryStatus) (st' : EmailService) (evs : List Event)
    (h : st.send id now oracle = .ok (res, st', evs)) (hinv : SentInv st) : SentInv st' := by
  simp only [EmailService.send] at h
  by_cases hsent : st.sentEmails id = true
  · rw [if_pos hsent] at h
    simp only [Except.ok.injEq, Prod.mk.injEq] at h
    obtain ⟨-, h2, -⟩ := h
    exact h2 ▸ hinv
  · rw [if_neg hsent] at h
    by_cases hallow : (st.rateLimiter.isAllowed now).1 = true
    · rw [if_pos hallow] at h
      cases hd : dispatchLoop oracle st.maxRetries st.providers 0 with
      | error e => rw [hd] at h; exact absurd h (by simp)
      | ok pr =>
        rw [hd] at h
        obtain ⟨evs0, r⟩ := pr
        cases r with
        | some pa =>
          simp only [Except.ok.injEq, Prod.mk.injEq] at h
          obtain ⟨-, h2, -⟩ := h
          subst h2
          intro id2
          by_cases hid : id2 = id
          · subst hid
            simp only [if_pos rfl]
            exact ⟨fun _ => ⟨pa.1, pa.2, rfl⟩, fun _ => rfl⟩
          · simp only [if_neg hid]
            exact hinv id2
        | none =>
          simp only [Except.ok.injEq, Prod.mk.injEq] at h
          obtain ⟨-, h2, -⟩ := h
          subst h2
          intro id2
          by_cases hid : id2 = id
          · subst hid
            simp only [if_pos rfl]
            constructor
            · intro hc; exact absurd hc hsent
            · rintro ⟨p, a, hpa⟩; cases hpa
          · simp only [if_neg hid]
            exact hinv id2
    · rw [if_neg hallow] at h
      simp only [Except.ok.injEq, Prod.mk.injEq] at h
      obtain ⟨-, h2, -⟩ := h
      subst h2
      intro id2
      by_cases hid : id2 = id
      · subst hid
        simp only [if_pos rfl]
        constructor
        · intro hc; exact absurd hc hsent
        · rintro ⟨p, a, hpa⟩; cases hpa
      · simp only [if_neg hid]
        exact hinv id2

theorem reachable_sentInv (st : EmailService) (hr : Reachable st) : SentInv st := by
  induction hr with
  | init p1 p2 mr st h => exact sentInv_construct p1 p2 mr st h
  | step st id now oracle res st' evs _ hsend ih =>
    exact sentInv_step st id now oracle res st' evs hsend ih

/-- Helper shared by C3 and C10: a `send` that passes the idempotency guard and
the rate limiter, and whose backends (all defined) fail every attempt, records
and returns `failed` with `maxRetries * providers.length` attempts. -/
theorem send_allFail (st : EmailService) (emailId : String) (now : Int)
    (oracle : Nat → Nat → Bool)
    (hns : st.sentEmails emailId = false)
    (hsome : ∀ p ∈ st.providers, p.isSome = true)
    (hfail : ∀ i k, oracle i k = false)
    (hallow : (st.rateLimiter.isAllowed now).1 = true) :
    st.send emailId now oracle
      = .ok (some (DeliveryStatus.failed (st.maxRetries * st.providers.length)),
          { st with
              rateLimiter := (st.rateLimiter.isAllowed now).2
              statusMap := fun id =>
                if id = emailId then
                  some (DeliveryStatus.failed (st.maxRetries * st.providers.length))
                else st.statusMap id },
          allFailEvents st.maxRetries st.providers) := by
  have hd := dispatchLoop_allFail oracle st.maxRetries hfail st.providers 0 hsome
  simp only [EmailService.send, hns, Bool.false_eq_true, if_false, if_pos hallow, hd]

/-! Helper lemmas for the sliding-window bound of the rate limiter. -/

theorem length_filter_mono {α : Type} (l : List α) (p q : α → Bool)
    (h : ∀ a ∈ l, p a = true → q a = true) :
    (l.filter p).length ≤ (l.filter q).length := by
  induction l with
  | nil => simp
  | cons x xs ih =>
    have ihx := ih (fun a ha hpa => h a (List.mem_cons_of_mem _ ha) hpa)
    by_cases hp : p x = true
    · have hq := h x (List.mem_cons_self x xs) hp
      simp only [List.filter_cons, hp, hq, if_true, List.length_cons]
      omega
    · have hp' : p x = false := by
        cases hpx : p x
        · rfl
        · exact absurd hpx hp
      by_cases hqx : q x = true
      · simp only [List.filter_cons, hp', hqx, Bool.false_eq_true, if_false, if_true,
          List.length_cons]
        omega
      · have hq' : q x = false := by
          cases hqq : q x
          · rfl
          · exact absurd hqq hqx
        simp only [List.filter_cons, hp', hq', Bool.false_eq_true, if_false]
        exact ihx

/-- Re-filtering an already window-pruned list at a later anchor agrees with
filtering the unpruned list at that anchor, provided all entries lie at or
before the earlier anchor. -/
theorem filter_window_shift (I : Int) (A : List Int) (now n : Int)
    (hle : ∀ t ∈ A, t ≤ now) (hnn : now ≤ n) :
    (A.filter (inWindow I now)).filter (fun ts => decide (n - ts < I))
      = A.filter (inWindow I n) := by
  rw [List.filter_filter]
  apply List.filter_congr
  intro t ht
  have h1 : t ≤ now := hle t ht
  by_cases h2 : n - t < I
  · have h3 : now - t < I := by omega
    have h4 : t ≤ n := by omega
    simp [inWindow, h1, h2, h3, h4]
  · simp [inWindow, h1, h2]

/-- Main invariant of a check sequence: if the stored timestamps agree with the
admitted-times list `A` on every upcoming window, all entries of both lie at or
before every upcoming check time, and `A` already satisfies the window bound,
then after running the whole sequence the full admitted list still satisfies the
window bound for every anchor, and the final stored sequence is no longer than
`limit`. -/
theorem runChecks_window_bound (I : Int) (L : Nat) :
    ∀ (times : List Int) (s : RateLimiter) (A : List Int),
      s.limit = L → s.intervalMs = I →
      List.Pairwise (· ≤ ·) times →
      (∀ n ∈ times,
        s.timestamps.filter (fun ts => decide (n - ts < I)) = A.filter (inWindow I n)) →
      (∀ t ∈ A, ∀ n ∈ times, t ≤ n) →
      (∀ w, (A.filter (inWindow I w)).length ≤ L) →
      s.timestamps.length ≤ L →
      (∀ w, ((A ++ allowedOf (runChecks s times).2).filter (inWindow I w)).length ≤ L)
        ∧ (runChecks s times).1.timestamps.length ≤ L := by
  intro times
  induction times with
  | nil =>
    intro s A hL hI hsort hagree hAle hAbound hslen
    constructor
    · intro w
      simpa [runChecks, allowedOf] using hAbound w
    · simpa [runChecks] using hslen
  | cons now rest ih =>
    intro s A hL hI hsort hagree hAle hAbound hslen
    obtain ⟨hhead, hsort'⟩ := List.pairwise_cons.mp hsort
    have hAnow : ∀ t ∈ A, t ≤ now := fun t ht => hAle t ht now (List.mem_cons_self _ _)
    have hpr : s.timestamps.filter (fun ts => decide (now - ts < I))
        = A.filter (inWindow I now) :=
      hagree now (List.mem_cons_self _ _)
    have hsplit : s.isAllowed now
        = if (A.filter (inWindow I now)).length < L then
            (true, { s with timestamps := A.filter (inWindow I now) ++ [now] })
          else
            (false, { s with timestamps := A.filter (inWindow I now) }) := by
      simp only [RateLimiter.isAllowed, hI, hpr, hL]
    have hagree_shift : ∀ n ∈ rest,
        (A.filter (inWindow I now)).filter (fun ts => decide (n - ts < I))
          = A.filter (inWindow I n) := by
      intro n hn
      exact filter_window_shift I A now n hAnow (hhead n hn)
    by_cases hcase : (A.filter (inWindow I now)).length < L
    · have hstep : s.isAllowed now
          = (true, { s with timestamps := A.filter (inWindow I now) ++ [now] }) := by
        rw [hsplit, if_pos hcase]
      have hrun : runChecks s (now :: rest)
          = ((runChecks { s with timestamps := A.filter (inWindow I now) ++ [now] } rest).1,
             (now, true)
               :: (runChecks
                    { s with timestamps := A.filter (inWindow I now) ++ [now] } rest).2) := by
        simp only [runChecks, hstep]
      have hnewagree : ∀ n ∈ rest,
          (A.filter (inWindow I now) ++ [now]).filter (fun ts => decide (n - ts < I))
            = (A ++ [now]).filter (inWindow I n) := by
        intro n hn
        have hnn : now ≤ n := hhead n hn
        rw [List.filter_append, List.filter_append, hagree_shift n hn]
        congr 1
        simp only [List.filter, inWindow]
        by_cases h2 : n - now < I
        · simp [h2, hnn]
        · simp [h2, hnn]
      have hnewle : ∀ t ∈ A ++ [now], ∀ n ∈ rest, t ≤ n := by
        intro t ht n hn
        rcases List.mem_append.mp ht with h1 | h2
        · exact hAle t h1 n (List.mem_cons_of_mem _ hn)
        · have : t = now := by simpa using h2
          exact this ▸ hhead n hn
      have hnewbound : ∀ w, ((A ++ [now]).filter (inWindow I w)).length ≤ L := by
        intro w
        rw [List.filter_append]
        by_cases hw : inWindow I w now = true
        · have hmono : (A.filter (inWindow I w)).length
              ≤ (A.filter (inWindow I now)).length := by
            apply length_filter_mono
            intro t ht hwt
            have h1 : t ≤ now := hAnow t ht
            have h2 : now ≤ w := by
              have := (Bool.and_eq_true _ _).mp hw
              exact of_decide_eq_true this.1
            have h3 : w - t < I := by
              have := (Bool.and_eq_true _ _).mp hwt
              exact of_decide_eq_true this.2
            have h4 : now - t < I := by omega
            simp [inWindow, h1, h4]
          simp only [List.filter, hw, List.length_append, List.length_cons, List.length_nil]
          omega
        · have hw' : inWindow I w now = false := by
            cases hx : inWindow I w now
            · rfl
            · exact absurd hx hw
          simp only [List.filter, hw', List.length_append, List.length_nil]
          have := hAbound w
          omega
      have hnewlen : (A.filter (inWindow I now) ++ [now]).length ≤ L := by
        simp only [List.length_append, List.length_cons, List.length_nil]
        omega
      have ihr := ih { s with timestamps := A.filter (inWindow I now) ++ [now] } (A ++ [now])
        hL hI hsort' hnewagree hnewle hnewbound hnewlen
      rw [hrun]
      constructor
      · intro w
        have := ihr.1 w
        simp only [allowedOf, List.filter, List.map] at this ⊢
        simpa [List.append_assoc] using this
      · exact ihr.2
    · have hstep : s.isAllowed now
          = (false, { s with timestamps := A.filter (inWindow I now) }) := by
        rw [hsplit, if_neg hcase]
      have hrun : runChecks s (now :: rest)
          = ((runChecks { s with timestamps := A.filter (inWindow I now) } rest).1,
             (now, false)
               :: (runChecks { s with timestamps := A.filter (inWindow I now) } rest).2) := by
        simp only [runChecks, hstep]
      have hnewle : ∀ t ∈ A, ∀ n ∈ rest, t ≤ n :=
        fun t ht n hn => hAle t ht n (List.mem_cons_of_mem _ hn)
      have hnewlen : (A.filter (inWindow I now)).length ≤ L := by
        calc (A.filter (inWindow I now)).length
            = (s.timestamps.filter (fun ts => decide (now - ts < I))).length := by rw [hpr]
          _ ≤ s.timestamps.length := List.length_filter_le _ _
          _ ≤ L := hslen
      have ihr := ih { s with timestamps := A.filter (inWindow I now) } A
        hL hI hsort' hagree_shift hnewle hAbound hnewlen
      rw [hrun]
      constructor
      · intro w
        have := ihr.1 w
        simpa [allowedOf] using this
      · exact ihr.2

/-! The ten claims. -/

/-- C1: in every reachable service state, once a `sent` status is stored for an
identity, any later `send` call for that identity (any payload behaviour, any
time) returns exactly the stored `sent` status, leaves the whole service state —
rate limiter included — unchanged, and performs no delivery attempts (empty
event trace). -/
theorem C1_sent_is_idempotent (st : EmailService) (emailId : String) (now : Int)
    (oracle : Nat → Nat → Bool) (p : String) (a : Nat)
    (hr : Reachable st) (hs : st.statusMap emailId = some (DeliveryStatus.sent p a)) :
    st.send emailId now oracle = .ok (some (DeliveryStatus.sent p a), st, []) := by
  have hsent : st.sentEmails emailId = true :=
    (reachable_sentInv st hr emailId).2 ⟨p, a, hs⟩
  simp only [EmailService.send, if_pos hsent, hs]

/-- Witness for C1: a concrete reachable state holding a `sent` record for
identity `e1`; re-sending `e1` returns the stored status and changes nothing. -/
theorem C1_witness :
    demoSt1.send "e1" 7 oracleTrue = .ok (some (DeliveryStatus.sent "A" 1), demoSt1, []) :=
  C1_sent_is_idempotent demoSt1 "e1" 7 oracleTrue "A" 1
    (Reachable.step demoSt0 "e1" 0 oracleTrue (some (DeliveryStatus.sent "A" 1)) demoSt1
      [Event.attempt "A" 0]
      (Reachable.init (some provA) (some provB) 3 demoSt0 rfl) rfl)
    rfl

/-- C2: per-backend attempt accounting.  First, in full generality: the attempt
count returned by the retry loop (run as `send` runs it, from attempt 0) is the
1-indexed index of the first successful attempt of that backend.  Second, the
concrete scenario: `maxRetries = 3`, backend A fails every attempt, backend B
succeeds on its second attempt — the dispatch returns `sent` via B with
`attempts = 2` (the counter having been reset to zero when switching to B). -/
theorem C2_sent_attempts_accounting :
    (∀ (name : String) (outcome : Nat → Bool) (delay mr : Nat),
        (runRetries name outcome 0 delay mr).2 = (firstSuccess outcome mr).map (· + 1))
    ∧ dispatchLoop (fun i k => decide (i = 1 ∧ k = 1)) 3 [some provA, some provB] 0
        = .ok ([Event.attempt "A" 0, Event.sleep 100, Event.attempt "A" 1, Event.sleep 200,
                Event.attempt "A" 2, Event.sleep 400, Event.attempt "B" 0, Event.sleep 100,
                Event.attempt "B" 1], some ("B", 2)) := by
  constructor
  · intro name outcome delay mr
    rw [runRetries_snd_eq_firstSuccess, firstSuccess, List.range_eq_range']
  · rfl

/-- C3: whenever every backend fails every attempt (and the call is neither
short-circuited nor rate-limited), `send` returns a `failed` status whose
`attempts` field is `maxRetries` times the number of backends. -/
theorem C3_failed_attempts (st : EmailService) (emailId : String) (now : Int)
    (oracle : Nat → Nat → Bool)
    (hns : st.sentEmails emailId = false)
    (hsome : ∀ p ∈ st.providers, p.isSome = true)
    (hfail : ∀ i k, oracle i k = false)
    (hallow : (st.rateLimiter.isAllowed now).1 = true) :
    st.send emailId now oracle
      = .ok (some (DeliveryStatus.failed (st.maxRetries * st.providers.length)),
          { st with
              rateLimiter := (st.rateLimiter.isAllowed now).2
              statusMap := fun id =>
                if id = emailId then
                  some (DeliveryStatus.failed (st.maxRetries * st.providers.length))
                else st.statusMap id },
          allFailEvents st.maxRetries st.providers) :=
  send_allFail st emailId now oracle hns hsome hfail hallow

/-- Witness for C3: the fresh demo service, both backends failing all three
attempts, returns `failed` with `3 * 2` attempts. -/
theorem C3_witness :
    demoSt0.send "e2" 0 oracleFalse
      = .ok (some (DeliveryStatus.failed (demoSt0.maxRetries * demoSt0.providers.length)),
          { demoSt0 with
              rateLimiter := (demoSt0.rateLimiter.isAllowed 0).2
              statusMap := fun id =>
                if id = "e2" then
                  some (DeliveryStatus.failed (demoSt0.maxRetries * demoSt0.providers.length))
                else demoSt0.statusMap id },
          allFailEvents demoSt0.maxRetries demoSt0.providers) :=
  C3_failed_attempts demoSt0 "e2" 0 oracleFalse rfl (by decide) (fun _ _ => rfl) rfl

/-- C4: evaluation at the failing input.  With `maxRetries = 1`, backend A
failing its single attempt and backend B succeeding immediately, the dispatch
trace contains a backoff sleep of the base delay 100 *between* A's only attempt
and B's first attempt: the code sleeps after the final failed attempt of a
backend (logging that it will retry, though it does not), so a delay does occur
at the switch from one backend to the next, contrary to the claim. -/
theorem C4_sleep_at_backend_switch :
    dispatchLoop (fun i _ => decide (i = 1)) 1 [some provA, some provB] 0
      = .ok ([Event.attempt "A" 0, Event.sleep 100, Event.attempt "B" 0], some ("B", 1)) := rfl

/-- C5: for any monotone sequence of check times, (1) the number of allowed
admissions whose timestamps lie within any trailing window of length
`intervalMs` never exceeds `limit`; (2) the retained timestamp sequence never
exceeds `limit` in length after the admission decisions (the run being
arbitrary, this holds at every instant); (3) on each check, every entry older
than `intervalMs` is pruned: everything retained is either within the window of
the current check or is the freshly appended timestamp. -/
theorem C5_rate_limiter_window_bound (L : Nat) (I : Int) (times : List Int)
    (hsort : List.Pairwise (· ≤ ·) times) :
    (∀ w, ((allowedOf (runChecks ⟨L, I, []⟩ times).2).filter (inWindow I w)).length ≤ L)
    ∧ (runChecks ⟨L, I, []⟩ times).1.timestamps.length ≤ L
    ∧ (∀ (s : RateLimiter) (now : Int), ∀ t ∈ (s.isAllowed now).2.timestamps,
        now - t < s.intervalMs ∨ t = now) := by
  have h := runChecks_window_bound I L times ⟨L, I, []⟩ [] rfl rfl hsort
    (by intro n _; rfl) (by intro t ht; cases ht) (by intro w; simp) (by simp)
  refine ⟨fun w => by simpa using h.1 w, h.2, ?_⟩
  intro s now t ht
  simp only [RateLimiter.isAllowed] at ht
  by_cases hc :
      (s.timestamps.filter (fun ts => decide (now - ts < s.intervalMs))).length < s.limit
  · rw [if_pos hc] at ht
    simp only at ht
    rcases List.mem_append.mp ht with h1 | h2
    · exact Or.inl (by simpa using (List.mem_filter.mp h1).2)
    · exact Or.inr (by simpa using h2)
  · rw [if_neg hc] at ht
    simp only at ht
    exact Or.inl (by simpa using (List.mem_filter.mp ht).2)

/-- Witness for C5: a limiter with limit 1 and window 10, checked at times
0, 0, 5 — the allowed admissions within the trailing window ending at 5 number
at most 1. -/
theorem C5_witness :
    ((allowedOf (runChecks ⟨1, 10, []⟩ [0, 0, 5]).2).filter (inWindow 10 5)).length ≤ 1 :=
  (C5_rate_limiter_window_bound 1 10 [0, 0, 5] (by decide)).1 5

/-- C6 (amended): with backend 0 failing every attempt and backend 1 succeeding
on its first try, backends are tried strictly in configured order (all of
backend 0's attempts precede backend 1's single attempt in the trace) and the
result is `sent` via backend 1 with `attempts = 1` — the per-backend counter
restarts at the switch, so the value is 1, not `maxRetries + 1`. -/
theorem C6_failover_order (mr : Nat) (na nb : String) (oracle : Nat → Nat → Bool)
    (hA : ∀ k, oracle 0 k = false) (hB : oracle 1 0 = true) (hmr : 0 < mr) :
    dispatchLoop oracle mr [some ⟨na⟩, some ⟨nb⟩] 0
      = .ok (failTrace na 0 100 mr ++ [Event.attempt nb 0], some (nb, 1)) := by
  obtain ⟨m, rfl⟩ : ∃ m, mr = m + 1 := ⟨mr - 1, by omega⟩
  have hAr : runRetries na (oracle 0) 0 100 (m + 1) = (failTrace na 0 100 (m + 1), none) :=
    runRetries_allFail na (oracle 0) hA (m + 1) 0 100
  have hBr : runRetries nb (oracle 1) 0 100 (m + 1) = ([Event.attempt nb 0], some 1) := by
    simp [runRetries, hB]
  simp only [dispatchLoop, hAr, hBr]

/-- C6 counterexample: at `maxRetries = 3` with backend A always failing and
backend B succeeding first try, the result carries `attempts = 1`, not
`maxRetries + 1 = 4` as the claim states. -/
theorem C6_counterexample :
    dispatchLoop (fun i _ => decide (i = 1)) 3 [some provA, some provB] 0
      = .ok (failTrace "A" 0 100 3 ++ [Event.attempt "B" 0], some ("B", 1))
    ∧ (("B", 1) : String × Nat) ≠ ("B", 3 + 1) := ⟨rfl, by decide⟩

/-- Witness for C6: the amended failover-order theorem applied at
`maxRetries = 3` with concrete backends A (always failing) and B (succeeding
first try). -/
theorem C6_witness :
    dispatchLoop (fun i _ => decide (i = 1)) 3 [some ⟨"A"⟩, some ⟨"B"⟩] 0
      = .ok (failTrace "A" 0 100 3 ++ [Event.attempt "B" 0], some ("B", 1)) :=
  C6_failover_order 3 "A" "B" (fun i _ => decide (i = 1)) (fun _ => rfl) rfl (by decide)

/-- C7: in any reachable state, a stored non-`sent` status (`rate_limited` or
`failed`) does not short-circuit a later `send` for that identity: the identity
is not in the sent set, the rate limiter is re-consulted (its updated state is
installed, i.e. budget is consumed), and the call either records and returns a
fresh `rate_limited` status or, when admitted and the dispatch succeeds, records
and returns the new terminal `sent` status — in both cases overwriting the
previously stored status for that identity. -/
theorem C7_non_sent_not_protected (st : EmailService) (emailId : String) (now : Int)
    (oracle : Nat → Nat → Bool) (s0 : DeliveryStatus)
    (hr : Reachable st) (hst : st.statusMap emailId = some s0)
    (hns : ∀ p a, s0 ≠ DeliveryStatus.sent p a) :
    st.sentEmails emailId = false
    ∧ ((st.rateLimiter.isAllowed now).1 = false →
        st.send emailId now oracle
          = .ok (some (DeliveryStatus.rate_limited 0),
              { st with
                  rateLimiter := (st.rateLimiter.isAllowed now).2
                  statusMap := fun id =>
                    if id = emailId then some (DeliveryStatus.rate_limited 0)
                    else st.statusMap id },
              []))
    ∧ ((st.rateLimiter.isAllowed now).1 = true →
        ∀ (evs : List Event) (pname : String) (a : Nat),
          dispatchLoop oracle st.maxRetries st.providers 0 = .ok (evs, some (pname, a)) →
          st.send emailId now oracle
            = .ok (some (DeliveryStatus.sent pname a),
                { st with
                    rateLimiter := (st.rateLimiter.isAllowed now).2
                    sentEmails := fun id => if id = emailId then true else st.sentEmails id
                    statusMap := fun id =>
                      if id = emailId then some (DeliveryStatus.sent pname a)
                      else st.statusMap id },
                evs)) := by
  have hinv := reachable_sentInv st hr
  have hsentF : st.sentEmails emailId = false := by
    cases hb : st.sentEmails emailId
    · rfl
    · obtain ⟨p, a, hpa⟩ := (hinv emailId).1 hb
      rw [hst] at hpa
      injection hpa with h1
      exact absurd h1 (hns p a)
  refine ⟨hsentF, fun hdeny => ?_, fun hallow evs pname a hd => ?_⟩
  · simp only [EmailService.send, hsentF, Bool.false_eq_true, if_false, hdeny]
  · simp only [EmailService.send, hsentF, Bool.false_eq_true, if_false, if_pos hallow, hd]

/-- Witness for C7: a reachable state holding `failed 6` for identity `e2`;
re-sending `e2` passes the rate limiter, dispatches, and overwrites the record
with `sent A 1`. -/
theorem C7_witness :
    demoStF.send "e2" 1 oracleTrue
      = .ok (some (DeliveryStatus.sent "A" 1),
          { demoStF with
              rateLimiter := (demoStF.rateLimiter.isAllowed 1).2
              sentEmails := fun id => if id = "e2" then true else demoStF.sentEmails id
              statusMap := fun id =>
                if id = "e2" then some (DeliveryStatus.sent "A" 1)
                else demoStF.statusMap id },
          [Event.attempt "A" 0]) :=
  (C7_non_sent_not_protected demoStF "e2" 1 oracleTrue (DeliveryStatus.failed 6)
      (Reachable.step demoSt0 "e2" 0 oracleFalse (some (DeliveryStatus.failed 6)) demoStF
        (allFailEvents 3 [some provA, some provB])
        (Reachable.init (some provA) (some provB) 3 demoSt0 rfl) rfl)
      rfl (fun _ _ h => DeliveryStatus.noConfusion h)).2.2 rfl
    [Event.attempt "A" 0] "A" 1 rfl

/-- C8: a rate limiter with `limit = 0` denies every admission check; one with
`intervalMs = 0` prunes every stored timestamp on each check (given that stored
timestamps are not in the future, as in any run under a monotone clock) and,
when `limit > 0`, allows the check, retaining only the fresh timestamp.  Both
are ordinary results of total functions, not errors. -/
theorem C8_degenerate_rate_limits :
    (∀ (s : RateLimiter) (now : Int), s.limit = 0 → (s.isAllowed now).1 = false)
    ∧ (∀ (s : RateLimiter) (now : Int), s.intervalMs = 0 →
        (∀ t ∈ s.timestamps, t ≤ now) →
        s.timestamps.filter (fun ts => decide (now - ts < s.intervalMs)) = []
        ∧ (0 < s.limit →
            (s.isAllowed now).1 = true ∧ (s.isAllowed now).2.timestamps = [now])) := by
  constructor
  · intro s now h
    simp [RateLimiter.isAllowed, h]
  · intro s now hI hle
    have hfe : s.timestamps.filter (fun ts => decide (now - ts < s.intervalMs)) = [] := by
      rw [List.filter_eq_nil_iff]
      intro t ht
      have := hle t ht
      simp only [hI, decide_eq_true_eq]
      omega
    refine ⟨hfe, fun hlim => ?_⟩
    constructor
    · simp [RateLimiter.isAllowed, hfe, hlim]
    · simp [RateLimiter.isAllowed, hfe, hlim]

/-- Witness for C8: a limiter with `limit = 0` denies a concrete check; a
limiter with `intervalMs = 0`, a stale stored timestamp and positive limit
allows a concrete check. -/
theorem C8_witness :
    ((⟨0, 100, []⟩ : RateLimiter).isAllowed 5).1 = false
    ∧ ((⟨3, 0, [2]⟩ : RateLimiter).isAllowed 5).1 = true :=
  ⟨C8_degenerate_rate_limits.1 ⟨0, 100, []⟩ 5 rfl,
   ((C8_degenerate_rate_limits.2 ⟨3, 0, [2]⟩ 5 rfl (by decide)).2 (by decide)).1⟩

/-- C9 counterexample: constructing the service with both backends missing — the
closest expressible malformed configuration, since the constructor takes exactly
two positional backends — succeeds rather than raising: the constructor body
performs no validation at all. -/
theorem C9_counterexample :
    (EmailService.construct none none 3).isOk = true := rfl

/-- C9 (amended): construction never fails, whatever the arguments — the
constructor performs no validation — and a configuration with missing backends
is only detected at send time, when the dispatch loop dereferences the missing
backend and throws. -/
theorem C9_no_construction_validation (p1 p2 : Option EmailProvider) (mr : Nat)
    (id : String) (now : Int) (oracle : Nat → Nat → Bool) :
    (EmailService.construct p1 p2 mr).isOk = true
    ∧ EmailService.construct none none mr = .ok (badService mr)
    ∧ (badService mr).send id now oracle = .error () :=
  ⟨rfl, rfl, rfl⟩

/-- C10: every constructed service has exactly the two positionally supplied
backends, a rate limiter hard-wired to `limit 5` / `intervalMs 10000` (no
rate-limit or backoff configuration is accepted), and hence every
all-backends-exhausted `send` records `failed` with `maxRetries * 2` attempts. -/
theorem C10_fixed_configuration (p1 p2 : Option EmailProvider) (mr : Nat)
    (st : EmailService) (h : EmailService.construct p1 p2 mr = .ok st) :
    st.providers = [p1, p2]
    ∧ st.providers.length = 2
    ∧ st.rateLimiter = { limit := 5, intervalMs := 10000, timestamps := [] }
    ∧ st.maxRetries * st.providers.length = mr * 2
    ∧ (∀ (a b : EmailProvider) (id : String) (now : Int) (oracle : Nat → Nat → Bool)
         (st2 : EmailService),
         EmailService.construct (some a) (some b) mr = .ok st2 →
         (∀ i k, oracle i k = false) →
         st2.send id now oracle
           = .ok (some (DeliveryStatus.failed (mr * 2)),
               { st2 with
                   rateLimiter := (st2.rateLimiter.isAllowed now).2
                   statusMap := fun id2 =>
                     if id2 = id then some (DeliveryStatus.failed (mr * 2))
                     else st2.statusMap id2 },
               allFailEvents mr [some a, some b])) := by
  simp only [EmailService.construct, Except.ok.injEq] at h
  subst h
  refine ⟨rfl, rfl, rfl, rfl, ?_⟩
  intro a b id now oracle st2 h2 hfail
  simp only [EmailService.construct, Except.ok.injEq] at h2
  subst h2
  exact send_allFail _ id now oracle rfl (by simp) hfail rfl

/-- Witness for C10: the demo service, all backends failing, records `failed`
with `3 * 2` attempts. -/
theorem C10_witness :
    demoSt0.send "w" 4 oracleFalse
      = .ok (some (DeliveryStatus.failed (3 * 2)),
          { demoSt0 with
              rateLimiter := (demoSt0.rateLimiter.isAllowed 4).2
              statusMap := fun id2 =>
                if id2 = "w" then some (DeliveryStatus.failed (3 * 2))
                else demoSt0.statusMap id2 },
          allFailEvents 3 [some provA, some provB]) :=
  (C10_fixed_configuration (some provA) (some provB) 3 demoSt0 rfl).2.2.2.2 provA provB "w" 4
    oracleFalse demoSt0 rfl (fun _ _ => rfl)

end EmailServiceModel
